import Mathlib

/-!
Shallow embedding of the media-composition logic of the n8n custom nodes
repository (files `src/nodes/ImageVideoComposer/ImageVideoComposer.node.ts`
and the `VideoComposer` node).  JavaScript numbers are modelled as exact
rationals (`ℚ`); the textual FFmpeg filter statements are modelled
structurally (one constructor per filter in the emitted chain), keeping every
numeric parameter as the exact value the source interpolates into the string.
-/

namespace NCompose

/-- The single-quote character, `'`. -/
def squote : Char := Char.ofNat 39

/-- The backslash character. -/
def bslash : Char := '\\'

/-- One global single-character substitution pass: models JavaScript
`String.prototype.replace` with a `/c/g` regular expression, replacing every
occurrence of `t` by `r`, scanning left to right. -/
def replaceAllChar (t : Char) (r : List Char) : List Char → List Char
  | [] => []
  | c :: cs => (if c = t then r else [c]) ++ replaceAllChar t r cs

/-- Four literal backslashes, the replacement text of the first pass of
`escapeSubtitlePath` (source: `.replace(/\\/g, '\\\\\\\\')`). -/
def fourBackslashes : List Char := [bslash, bslash, bslash, bslash]

/-- `escapeSubtitlePath` from both composer nodes: three global substitution
passes in a fixed order — backslash to four backslashes, then colon to
backslash-colon, then single quote to backslash-quote. -/
def escapeSubtitlePath (filePath : List Char) : List Char :=
  replaceAllChar squote [bslash, squote]
    (replaceAllChar ':' [bslash, ':']
      (replaceAllChar bslash fourBackslashes filePath))

/-- The per-character effect of the three escaping passes taken together. -/
def escChar (c : Char) : List Char :=
  if c = bslash then fourBackslashes
  else if c = ':' then [bslash, ':']
  else if c = squote then [bslash, squote]
  else [c]

/-- Character-wise reading of the whole escape transform. -/
def escCharwise (filePath : List Char) : List Char :=
  (filePath.map escChar).flatten

/-- Node.js `path.extname` (posix): the part of the basename starting at its
last dot, or the empty string when the basename has no dot, when its last dot
is its leading character, or — Node's dedicated special case — when the
basename is exactly `..`. -/
def extname (s : List Char) : List Char :=
  let b := (s.reverse.takeWhile (fun c => c ≠ '/')).reverse
  let afterDotRev := b.reverse.takeWhile (fun c => c ≠ '.')
  if b = ['.', '.'] then []
  else if afterDotRev.length + 1 ≤ b.length then
    if afterDotRev.length + 1 = b.length then []
    else '.' :: afterDotRev.reverse
  else []

/-- Lower-casing of a path extension (JavaScript `toLowerCase`, ASCII range). -/
def toLowerChars (s : List Char) : List Char := s.map Char.toLower

/-- The supported subtitle formats, in source order. -/
def supportedFormats : List String := [".srt", ".ass", ".ssa", ".vtt"]

/-- The error message of `getSubtitleFormat`:
`Unsupported subtitle format: ${ext}, only supports ${supportedFormats.join(', ')}`. -/
def unsupportedSubtitleMsg (ext : String) : String :=
  "Unsupported subtitle format: " ++ ext ++ ", only supports " ++
    String.intercalate ", " supportedFormats

/-- `getSubtitleFormat` from both composer nodes: extract the lower-cased
extension and reject it (by throwing a `NodeOperationError`, modelled as
`Except.error` carrying the message) unless it is a supported format. -/
def getSubtitleFormat (filePath : String) : Except String String :=
  let ext := String.mk (toLowerChars (extname filePath.data))
  if ext ∈ supportedFormats then Except.ok ext
  else Except.error (unsupportedSubtitleMsg ext)

/-- JavaScript `Math.round`: round half towards positive infinity. -/
def jsMathRound (q : ℚ) : ℤ := ⌊q + 1 / 2⌋

/-- JavaScript `Math.ceil`. -/
def jsMathCeil (q : ℚ) : ℤ := ⌈q⌉

/-- JavaScript `(x).toFixed(3)`, as the rounded value it prints: the multiple
of `1/1000` nearest to `x`, ties resolved to the larger candidate. -/
def toFixed3 (q : ℚ) : ℚ := (⌊q * 1000 + 1 / 2⌋ : ℚ) / 1000

/-- The unified target sample rate of both composers (source: `const
targetSampleRate = 44100`). -/
def targetSampleRate : ℕ := 44100

/-- One filter of a per-track audio processing chain.  Each constructor stands
for one comma-separated segment of the textual chain the source appends, with
the numeric parameter kept as the exact value interpolated into the string. -/
inductive AudioFilterStep
  /-- `aresample=${rate}` -/
  | aresample (rate : ℕ)
  /-- `aformat=sample_rates=${rate}:channel_layouts=stereo` -/
  | aformatStereo (rate : ℕ)
  /-- `aformat=sample_rates=${rate}:channel_layouts=mono,pan=stereo|c0=c0|c1=c0`
  (the mono-source branch of the video composer) -/
  | aformatMonoPanStereo (rate : ℕ)
  /-- `atrim=0:${endSec}` -/
  | atrim (endSec : ℚ)
  /-- `asetpts=PTS-STARTPTS` -/
  | asetpts
  /-- `adelay=${ms}|${ms}:all=1` -/
  | adelay (ms : ℤ)
  /-- `apad=pad_dur=${padDur.toFixed(3)}`; the parameter stores the rounded
  value that `toFixed(3)` prints -/
  | apad (padDurFixed3 : ℚ)
  deriving DecidableEq, Repr

/-- An audio stream label of the filter graph. -/
inductive ALabel
  /-- `[a${i}]` -/
  | a (i : ℕ)
  /-- `[orig_audio]` (the video composer's original-audio pseudo-track) -/
  | origAudio
  deriving DecidableEq, Repr

/-- Rendering of an audio label into graph text. -/
def ALabel.render : ALabel → String
  | .a i => "[a" ++ toString i ++ "]"
  | .origAudio => "[orig_audio]"

/-- One audio track of the image composer's request, after the probing step:
`audio_filePath`, `audio_starttime` (milliseconds) and the probed `duration`
(seconds). -/
structure AudioInfo where
  audio_filePath : String
  audio_starttime : ℚ
  duration : ℚ
  deriving DecidableEq, Repr

/-- One emitted per-track chain: the FFmpeg input it reads (`[inputIndex:a]`),
its filters in order, and the index `i` of its output label `[a i]`. -/
structure AudioChainPart where
  inputIndex : ℕ
  steps : List AudioFilterStep
  outLabel : ℕ
  deriving DecidableEq, Repr

/-- The timing tail shared by both composers' chains: trim to the effective
duration, reset timestamps, delay by `round(startTime*1000)` ms when
`startTime > 0`, and pad `padDuration = totalDuration − effectiveDuration −
startTime` seconds of silence when that is positive.  The source's
trailing-comma removal is a string artifact: structurally the chain either
ends with the `apad` filter or has no `apad` filter. -/
def chainTimingSteps (totalDuration startTime effectiveDuration : ℚ) :
    List AudioFilterStep :=
  [AudioFilterStep.atrim effectiveDuration,
   AudioFilterStep.asetpts] ++
  (if startTime > 0 then
    [AudioFilterStep.adelay (jsMathRound (startTime * 1000))] else []) ++
  (let padDuration := totalDuration - effectiveDuration - startTime
   if padDuration > 0 then
    [AudioFilterStep.apad (toFixed3 padDuration)] else [])

/-- The full step list of one image-composer chain (source step 5.5):
`aresample`, `aformat` to stereo, then the timing tail. -/
def imageChainSteps (totalDuration startTime effectiveDuration : ℚ) :
    List AudioFilterStep :=
  [AudioFilterStep.aresample targetSampleRate,
   AudioFilterStep.aformatStereo targetSampleRate] ++
  chainTimingSteps totalDuration startTime effectiveDuration

/-- The image composer's per-track chain construction (source step 5.5).
`startTime = audio_starttime / 1000`, `effectiveDuration = min(duration,
totalDuration − startTime)`; a track with non-positive effective duration is
skipped (`continue`, modelled as `none`). -/
def buildImageAudioChain (totalDuration : ℚ) (audioStartIndex i : ℕ)
    (a : AudioInfo) : Option AudioChainPart :=
  let startTime := a.audio_starttime / 1000
  let inputIndex := audioStartIndex + i
  let maxDuration := totalDuration - startTime
  let effectiveDuration := min a.duration maxDuration
  if effectiveDuration ≤ 0 then none
  else
    some
      { inputIndex := inputIndex
        steps := imageChainSteps totalDuration startTime effectiveDuration
        outLabel := i }

/-- The image composer's `for (let i = 0; ...)` loop over `audioInfos`,
carrying the running index `i`. -/
def imageAudioPartsAux (totalDuration : ℚ) (audioStartIndex : ℕ) :
    ℕ → List AudioInfo → List AudioChainPart
  | _, [] => []
  | i, a :: rest =>
    match buildImageAudioChain totalDuration audioStartIndex i a with
    | none => imageAudioPartsAux totalDuration audioStartIndex (i + 1) rest
    | some p => p :: imageAudioPartsAux totalDuration audioStartIndex (i + 1) rest

/-- All surviving per-track chains of the image composer, in order. -/
def imageAudioParts (totalDuration : ℚ) (audioStartIndex : ℕ)
    (audioInfos : List AudioInfo) : List AudioChainPart :=
  imageAudioPartsAux totalDuration audioStartIndex 0 audioInfos

/-- The final audio-mixing statement, selected by the number of surviving
labels (source step 5.6 of the image composer, step 4.3 of the video
composer). -/
inductive MixStage
  /-- `anullsrc=channel_layout=stereo:sample_rate=${rate}:duration=${dur}[outa]` -/
  | silence (sampleRate : ℕ) (durationSec : ℚ)
  /-- `${label}anull[outa]` -/
  | anull (label : ALabel)
  /-- `${labels…}amix=inputs=${inputs}:duration=longest:dropout_transition=0`,
  with `:normalize=0` exactly when `normalizeZero`, followed by
  `[mixed];[mixed]volume=${g}dB[outa]` when `postVolumeDb = some g` and by
  `[outa]` directly when `postVolumeDb = none` -/
  | amix (labels : List ALabel) (inputs : ℕ) (normalizeZero : Bool)
      (postVolumeDb : Option ℕ)
  deriving DecidableEq, Repr

/-- The labels listed as inputs of a mix node (empty for the other stages). -/
def MixStage.inputLabels : MixStage → List ALabel
  | .amix ls _ _ _ => ls
  | _ => []

/-- The gain stage emitted directly after a mix node, when any. -/
def MixStage.postGain : MixStage → Option ℕ
  | .amix _ _ _ g => g
  | _ => none

/-- Image composer, source step 5.6: silence for zero labels, `anull`
passthrough for one, otherwise `amix … :normalize=0` followed by a fixed
`volume=4dB` stage. -/
def imageMixStage (totalDuration : ℚ) : List ALabel → MixStage
  | [] => MixStage.silence targetSampleRate totalDuration
  | [l] => MixStage.anull l
  | ls => MixStage.amix ls ls.length true (some 4)

/-- Video composer, source step 4.3: silence for zero labels, `anull`
passthrough for one, otherwise `amix` with no `normalize` option and no gain
stage after it. -/
def videoMixStage (videoDuration : ℚ) : List ALabel → MixStage
  | [] => MixStage.silence targetSampleRate videoDuration
  | [l] => MixStage.anull l
  | ls => MixStage.amix ls ls.length false none

/-- The part of the `amix` statement both composers share for `N ≥ 2` labels:
`${mixInputs}amix=inputs=${N}:duration=longest:dropout_transition=0`. -/
def amixTextCore (ls : List ALabel) : String :=
  String.join (ls.map ALabel.render) ++ "amix=inputs=" ++ toString ls.length ++
    ":duration=longest:dropout_transition=0"

/-- The image composer's full mixing statement for `N ≥ 2` labels
(source line 525). -/
def imageAmixText (ls : List ALabel) : String :=
  amixTextCore ls ++ ":normalize=0[mixed];[mixed]volume=4dB[outa]"

/-- The video composer's full mixing statement for `N ≥ 2` labels
(source step 4.3). -/
def videoAmixText (ls : List ALabel) : String :=
  amixTextCore ls ++ "[outa]"

/-- One overlay audio source of the video composer, after probing:
`startTime` is in seconds (the node's `Start Time (Seconds)` parameter),
`hasAudio`, `duration` and `channels` come from `getMediaStreamInfo`
(`audioStream?.channels || 2`). -/
structure VideoAudioIn where
  filePath : String
  startTime : ℚ
  hasAudio : Bool
  duration : ℚ
  channels : ℕ
  deriving DecidableEq, Repr

/-- One emitted chain of the video composer: the FFmpeg input it reads,
its filters, and its output label. -/
structure VideoAudioChain where
  inputIndex : ℕ
  steps : List AudioFilterStep
  outLabel : ALabel
  deriving DecidableEq, Repr

/-- The format-normalization head of a video-composer chain: mono sources get
`pan=stereo|c0=c0|c1=c0` after `aformat`, others are converted to stereo
directly. -/
def videoFormatSteps (channels : ℕ) : List AudioFilterStep :=
  if channels = 1 then
    [AudioFilterStep.aresample targetSampleRate,
     AudioFilterStep.aformatMonoPanStereo targetSampleRate]
  else
    [AudioFilterStep.aresample targetSampleRate,
     AudioFilterStep.aformatStereo targetSampleRate]

/-- The full step list of one video-composer chain (source step 4.2): the
channel-dependent format head, then the timing tail against the base video's
duration. -/
def videoChainSteps (videoDuration : ℚ) (channels : ℕ)
    (startTime effectiveDuration : ℚ) : List AudioFilterStep :=
  videoFormatSteps channels ++
    chainTimingSteps videoDuration startTime effectiveDuration

/-- The video composer's loop over `audioInfos` (source step 4.2): a track
without an audio stream or with non-positive effective duration is skipped;
a surviving track is registered as the next FFmpeg input (`actualInputIndex`,
threaded as `nextInput`) and labelled `[a i]` with `i` the loop index. -/
def buildVideoAudioChains (videoDuration : ℚ) :
    ℕ → ℕ → List VideoAudioIn → List VideoAudioChain
  | _, _, [] => []
  | i, nextInput, a :: rest =>
    if a.hasAudio = false then
      buildVideoAudioChains videoDuration (i + 1) nextInput rest
    else
      let startTime := a.startTime
      let maxDuration := videoDuration - startTime
      let effectiveDuration := min a.duration maxDuration
      if effectiveDuration ≤ 0 then
        buildVideoAudioChains videoDuration (i + 1) nextInput rest
      else
        { inputIndex := nextInput
          steps := videoChainSteps videoDuration a.channels startTime
            effectiveDuration
          outLabel := ALabel.a i } ::
        buildVideoAudioChains videoDuration (i + 1) (nextInput + 1) rest

/-- The video composer's whole audio section (source steps 4.2–4.3): the
optional `[orig_audio]` chain (present when the original audio is not muted
and the base video has an audio stream), then the overlay-track chains, and
the mixing statement over their labels in that order. -/
def videoAudioSection (videoDuration : ℚ) (muteOriginalAudio videoHasAudio : Bool)
    (origChannels : ℕ) (audioInfos : List VideoAudioIn) :
    List VideoAudioChain × MixStage :=
  let origParts : List VideoAudioChain :=
    if (!muteOriginalAudio && videoHasAudio) = true then
      [{ inputIndex := 0, steps := videoFormatSteps origChannels,
         outLabel := ALabel.origAudio }]
    else []
  let trackParts := buildVideoAudioChains videoDuration 0 1 audioInfos
  let parts := origParts ++ trackParts
  (parts, videoMixStage videoDuration (parts.map VideoAudioChain.outLabel))

/-- JavaScript `String.prototype.trim`, on the character list: drop
whitespace from both ends. -/
def jsTrimChars (s : List Char) : List Char :=
  ((s.dropWhile Char.isWhitespace).reverse.dropWhile Char.isWhitespace).reverse

/-- Whether a subtitle is provided: the source guard
`subtitlePath && subtitlePath.trim().length > 0`. -/
def hasSubtitleParam (subtitlePath : String) : Bool :=
  decide (0 < (jsTrimChars subtitlePath.data).length)

/-- The subtitle-overlay statement of the video composer (source step 4.1):
`[0:v]subtitles='${escapedSubPath}'[outv]`. -/
def videoSubtitleStmt (subtitlePath : String) : String :=
  "[0:v]subtitles=\x27" ++ String.mk (escapeSubtitlePath subtitlePath.data) ++
    "\x27[outv]"

/-- The video composer's video section (source step 4.1): with a subtitle, a
burn-in statement is pushed and the output label becomes `[outv]`; without
one, the label stays the raw stream `0:v` and no statement is pushed. -/
def videoComposerVideoPlan (subtitlePath : String) : String × List String :=
  if hasSubtitleParam subtitlePath then
    ("[outv]", [videoSubtitleStmt subtitlePath])
  else
    ("0:v", [])

/-- The video-codec output options chosen by the video composer (source
step 5): full libx264 re-encoding with a subtitle, stream copy without. -/
def videoComposerCodecOptions (subtitlePath : String) : List String :=
  if hasSubtitleParam subtitlePath then
    ["-c:v", "libx264", "-preset", "medium", "-crf", "23", "-pix_fmt", "yuv420p"]
  else
    ["-c:v", "copy"]

/-- One filter of a per-scene video chain of the image composer (source
step 5.3).  The zoom expression of `zoompan` is kept as the function of the
output frame number `on` that the interpolated string denotes. -/
inductive VideoFilterStep
  /-- `scale=1920:1080:force_original_aspect_ratio=decrease,pad=1920:1080:(ow-iw)/2:(oh-ih)/2,setsar=1` -/
  | scalePadSetsar (w h : ℕ)
  /-- `fps=${fps}` -/
  | fps (rate : ℕ)
  /-- `zoompan=z='${zoom on}':d=${dFrames}:x='iw/2-(1920/2)':y='ih/2-(1080/2)':s=1920x1080` -/
  | zoompan (zoom : ℚ → ℚ) (dFrames : ℤ) (w h : ℕ)
  /-- `trim=duration=${durationSec}` -/
  | trim (durationSec : ℚ)
  /-- `setpts=PTS-STARTPTS` -/
  | setptsReset

/-- The per-scene chain of the image composer: `duration` is
`scene_duration / 1000` seconds, `fps = 25`,
`totalFrames = Math.ceil(duration * fps)`; with Ken Burns enabled a
`zoompan` with zoom expression `1+0.1*on/${totalFrames}` is inserted. -/
def buildSceneFilter (enableKenBurns : Bool) (scene_duration : ℚ) :
    List VideoFilterStep :=
  let duration := scene_duration / 1000
  let fps : ℕ := 25
  let totalFrames : ℤ := jsMathCeil (duration * fps)
  if enableKenBurns then
    [VideoFilterStep.scalePadSetsar 1920 1080,
     VideoFilterStep.fps fps,
     VideoFilterStep.zoompan
       (fun onFrame => 1 + 1 / 10 * onFrame / (totalFrames : ℚ)) totalFrames 1920 1080,
     VideoFilterStep.trim duration,
     VideoFilterStep.setptsReset]
  else
    [VideoFilterStep.scalePadSetsar 1920 1080,
     VideoFilterStep.fps fps,
     VideoFilterStep.trim duration,
     VideoFilterStep.setptsReset]

/-- One scene of the image composer's request. -/
structure SceneInfo where
  image_filepath : String
  scene_duration : ℚ
  deriving DecidableEq, Repr

/-- `totalDuration` of the image composer (source step 3): the sum of the
scene durations, milliseconds to seconds. -/
def totalDurationOf (sceneList : List SceneInfo) : ℚ :=
  (sceneList.map SceneInfo.scene_duration).sum / 1000

/-- The video tail statement of the image composer (source step 5.4.1):
subtitle burn-in over `[video_concat]` when a subtitle is provided, an
explicit `copy` relabelling otherwise.  Either way the final video label is
`[outv]`. -/
def imageVideoTailStmt (subtitlePath : String) : String :=
  if hasSubtitleParam subtitlePath then
    "[video_concat]subtitles=\x27" ++
      String.mk (escapeSubtitlePath subtitlePath.data) ++
      "\x27:charenc=UTF-8[outv]"
  else
    "[video_concat]copy[outv]"

/-- The structural compilation result of the image composer's step 5: the
ordered input files, the per-scene chains, the concat arity, the video tail
statement with its output label, the surviving audio chains and the mixing
stage over their labels. -/
structure ImagePlan where
  inputFiles : List String
  sceneFilters : List (List VideoFilterStep)
  concatN : ℕ
  videoTail : String
  videoOutputLabel : String
  audioParts : List AudioChainPart
  audioMix : MixStage
  outputPath : String

/-- The image composer's pure compilation step (source steps 3 and 5), a
function of the probed request only. -/
def compileImage (sceneList : List SceneInfo) (audioInfos : List AudioInfo)
    (enableKenBurns : Bool) (subtitlePath outputPath : String) : ImagePlan :=
  let totalDuration := totalDurationOf sceneList
  let audioStartIndex := sceneList.length
  let parts := imageAudioParts totalDuration audioStartIndex audioInfos
  { inputFiles :=
      sceneList.map SceneInfo.image_filepath ++
        audioInfos.map AudioInfo.audio_filePath
    sceneFilters :=
      sceneList.map (fun s => buildSceneFilter enableKenBurns s.scene_duration)
    concatN := sceneList.length
    videoTail := imageVideoTailStmt subtitlePath
    videoOutputLabel := "[outv]"
    audioParts := parts
    audioMix :=
      imageMixStage totalDuration (parts.map (fun p => ALabel.a p.outLabel))
    outputPath := outputPath }

/-- The JSON object the image composer returns on success (source step 7). -/
structure ComposeResultJson where
  success : Bool
  outputPath : String
  totalDuration : ℚ
  sceneCount : ℕ
  audioCount : ℕ
  hasSubtitle : Bool
  kenBurnsEnabled : Bool
  deriving DecidableEq, Repr

/-- One entry of the image composer's raw audio list, before probing:
`audio_filePath` and `audio_starttime` (milliseconds). -/
structure AudioItem where
  audio_filePath : String
  audio_starttime : ℚ
  deriving DecidableEq, Repr

/-- The success result of the image composer: `audioCount` is
`audioList.length`, the number of supplied tracks. -/
def imageComposeResult (sceneList : List SceneInfo) (audioList : List AudioItem)
    (enableKenBurns : Bool) (subtitlePath outputPath : String) :
    ComposeResultJson :=
  { success := true
    outputPath := outputPath
    totalDuration := totalDurationOf sceneList
    sceneCount := sceneList.length
    audioCount := audioList.length
    hasSubtitle := hasSubtitleParam subtitlePath
    kenBurnsEnabled := enableKenBurns }

/-- The external collaborators of `execute`: the filesystem existence check
and the `ffprobe` duration probe, both opaque to the compiler. -/
structure Env where
  fileExists : String → Bool
  probeDuration : String → ℚ

/-- Step 4 of the image composer: one probed `AudioInfo` per raw audio item,
its `duration` coming from the probe. -/
def probedAudioInfo (env : Env) (a : AudioItem) : AudioInfo :=
  { audio_filePath := a.audio_filePath
    audio_starttime := a.audio_starttime
    duration := env.probeDuration a.audio_filePath }

/-- Steps 4–7 of the image composer once validation has passed: probe every
track's duration (in list order), compile the plan (whose execution by the
encoding engine is the external side effect), and return the success JSON
together with the list of probed paths. -/
def imageExecuteProbed (env : Env) (sceneList : List SceneInfo)
    (audioList : List AudioItem) (enableKenBurns : Bool)
    (subtitlePath outputPath : String) :
    Except String ComposeResultJson × List String :=
  let audioInfos : List AudioInfo := audioList.map (probedAudioInfo env)
  let _plan :=
    compileImage sceneList audioInfos enableKenBurns subtitlePath outputPath
  (Except.ok
    (imageComposeResult sceneList audioList enableKenBurns subtitlePath
      outputPath),
   audioList.map AudioItem.audio_filePath)

/-- The image composer's `execute` body for one item (source steps 2–7),
with its validation order made explicit: empty-scene check, image existence,
audio existence, subtitle existence and format, then one duration probe per
audio track, then compilation and the success result.  The second component
records the paths probed, in order; every error path returns before any
probe. -/
def imageExecute (env : Env) (sceneList : List SceneInfo)
    (audioList : List AudioItem) (enableKenBurns : Bool)
    (subtitlePath outputPath : String) :
    Except String ComposeResultJson × List String :=
  if sceneList.length = 0 then
    (Except.error "Scene list is empty, at least one image scene is required", [])
  else
    match sceneList.find? (fun s => ! env.fileExists s.image_filepath) with
    | some s =>
      (Except.error ("Image file does not exist: " ++ s.image_filepath), [])
    | none =>
      match audioList.find? (fun a => ! env.fileExists a.audio_filePath) with
      | some a =>
        (Except.error ("Audio file does not exist: " ++ a.audio_filePath), [])
      | none =>
        if hasSubtitleParam subtitlePath then
          if env.fileExists subtitlePath = false then
            (Except.error ("Subtitle file does not exist: " ++ subtitlePath), [])
          else
            match getSubtitleFormat subtitlePath with
            | Except.error e => (Except.error e, [])
            | Except.ok _ => imageExecuteProbed env sceneList audioList
                enableKenBurns subtitlePath outputPath
        else
          imageExecuteProbed env sceneList audioList enableKenBurns
            subtitlePath outputPath

/-- The slice of a `getMediaStreamInfo` probe result the video composer
reads: stream presence, the computed duration, and the audio stream's
channel count (`audioStream?.channels || 2`). -/
structure MediaProbe where
  hasVideo : Bool
  hasAudio : Bool
  duration : ℚ
  channels : ℕ
  deriving DecidableEq, Repr

/-- The external collaborators of the video composer's `execute`: the
filesystem existence check and the media probe. -/
structure VEnv where
  fileExists : String → Bool
  probeMedia : String → MediaProbe

/-- One entry of the video composer's raw audio list: `path` and `startTime`
(seconds). -/
structure VAudioFile where
  path : String
  startTime : ℚ
  deriving DecidableEq, Repr

/-- Step 3 of the video composer for one overlay file: the probed
`VideoAudioIn` record the planning loop consumes. -/
def probedVideoAudio (env : VEnv) (f : VAudioFile) : VideoAudioIn :=
  { filePath := f.path
    startTime := f.startTime
    hasAudio := (env.probeMedia f.path).hasAudio
    duration := (env.probeMedia f.path).duration
    channels := (env.probeMedia f.path).channels }

/-- The JSON object the video composer returns on success (source step 6). -/
structure VideoComposeResultJson where
  success : Bool
  outputPath : String
  videoPath : String
  audioFilesCount : ℕ
  hasSubtitle : Bool
  muteOriginalAudio : Bool
  videoDuration : ℚ
  deriving DecidableEq, Repr

/-- Steps 3–6 of the video composer once file validation has passed: probe
the base video, fail when it has no video stream, probe the overlay files,
build the filter graph (whose execution by the encoding engine is the
external side effect), and return the success JSON. -/
def videoExecuteProbed (env : VEnv) (videoPath : String)
    (audioFiles : List VAudioFile) (subtitlePath : String)
    (muteOriginalAudio : Bool) (outputPath : String) :
    Except String VideoComposeResultJson :=
  let videoInfo := env.probeMedia videoPath
  if videoInfo.hasVideo = false then
    Except.error "Input file is missing video stream!"
  else
    let audioInfos := audioFiles.map (probedVideoAudio env)
    let _section := videoAudioSection videoInfo.duration muteOriginalAudio
      videoInfo.hasAudio videoInfo.channels audioInfos
    let _videoPlan := videoComposerVideoPlan subtitlePath
    let _codec := videoComposerCodecOptions subtitlePath
    Except.ok
      { success := true
        outputPath := outputPath
        videoPath := videoPath
        audioFilesCount := audioFiles.length
        hasSubtitle := hasSubtitleParam subtitlePath
        muteOriginalAudio := muteOriginalAudio
        videoDuration := videoInfo.duration }

/-- The video composer's `execute` body for one item (source steps 2–6),
with its validation order made explicit: video existence, audio existence,
subtitle existence and format, then probing and planning. -/
def videoExecute (env : VEnv) (videoPath : String)
    (audioFiles : List VAudioFile) (subtitlePath : String)
    (muteOriginalAudio : Bool) (outputPath : String) :
    Except String VideoComposeResultJson :=
  if env.fileExists videoPath = false then
    Except.error ("Video file does not exist: " ++ videoPath)
  else
    match audioFiles.find? (fun f => ! env.fileExists f.path) with
    | some f => Except.error ("Audio file does not exist: " ++ f.path)
    | none =>
      if hasSubtitleParam subtitlePath then
        if env.fileExists subtitlePath = false then
          Except.error ("Subtitle file does not exist: " ++ subtitlePath)
        else
          match getSubtitleFormat subtitlePath with
          | Except.error e => Except.error e
          | Except.ok _ => videoExecuteProbed env videoPath audioFiles
              subtitlePath muteOriginalAudio outputPath
      else
        videoExecuteProbed env videoPath audioFiles subtitlePath
          muteOriginalAudio outputPath

theorem replaceAllChar_append (t : Char) (r a b : List Char) :
    replaceAllChar t r (a ++ b) =
      replaceAllChar t r a ++ replaceAllChar t r b := by
  induction a with
  | nil => rfl
  | cons c cs ih => simp [replaceAllChar, ih]

theorem escapeSubtitlePath_charwise (p : List Char) :
    escapeSubtitlePath p = escCharwise p := by
  induction p with
  | nil => rfl
  | cons c cs ih =>
    have hstep : escapeSubtitlePath (c :: cs) =
        replaceAllChar squote [bslash, squote]
          (replaceAllChar ':' [bslash, ':']
            (if c = bslash then fourBackslashes else [c])) ++
          escapeSubtitlePath cs := by
      rw [escapeSubtitlePath,
        show replaceAllChar bslash fourBackslashes (c :: cs) =
          (if c = bslash then fourBackslashes else [c]) ++
            replaceAllChar bslash fourBackslashes cs from by
          simp [replaceAllChar],
        replaceAllChar_append, replaceAllChar_append]
      rfl
    have hhd : replaceAllChar squote [bslash, squote]
        (replaceAllChar ':' [bslash, ':']
          (if c = bslash then fourBackslashes else [c])) = escChar c := by
      by_cases h1 : c = bslash
      · subst h1; decide
      · by_cases h2 : c = ':'
        · subst h2; decide
        · by_cases h3 : c = squote
          · subst h3; decide
          · simp [replaceAllChar, escChar, h1, h2, h3]
    rw [hstep, hhd, ih]
    simp [escCharwise]

theorem buildImageAudioChain_outLabel (td : ℚ) (asi i : ℕ) (a : AudioInfo)
    (p : AudioChainPart) (h : buildImageAudioChain td asi i a = some p) :
    p.outLabel = i := by
  simp only [buildImageAudioChain] at h
  split at h
  · exact absurd h (by simp)
  · simp only [Option.some.injEq] at h
    subst h
    rfl

theorem mem_imageAudioPartsAux (td : ℚ) (asi : ℕ) (audios : List AudioInfo)
    (i0 : ℕ) (p : AudioChainPart)
    (hp : p ∈ imageAudioPartsAux td asi i0 audios) :
    ∃ j a, audios[j]? = some a ∧
      buildImageAudioChain td asi (i0 + j) a = some p := by
  induction audios generalizing i0 with
  | nil => simp [imageAudioPartsAux] at hp
  | cons a rest ih =>
    simp only [imageAudioPartsAux] at hp
    cases hbuild : buildImageAudioChain td asi i0 a with
    | none =>
      rw [hbuild] at hp
      obtain ⟨j, b, hj, hb⟩ := ih (i0 + 1) hp
      refine ⟨j + 1, b, by simpa using hj, ?_⟩
      rw [show i0 + (j + 1) = i0 + 1 + j by omega]
      exact hb
    | some q =>
      rw [hbuild] at hp
      rcases List.mem_cons.mp hp with h | h
      · exact ⟨0, a, by simp, by simpa [h] using hbuild⟩
      · obtain ⟨j, b, hj, hb⟩ := ih (i0 + 1) h
        refine ⟨j + 1, b, by simpa using hj, ?_⟩
        rw [show i0 + (j + 1) = i0 + 1 + j by omega]
        exact hb

theorem imageMixStage_inputLabels_subset (td : ℚ) (L : List ALabel) :
    (imageMixStage td L).inputLabels ⊆ L := by
  match L with
  | [] =>
    intro x hx
    simp [imageMixStage, MixStage.inputLabels] at hx
  | [l] =>
    intro x hx
    simp [imageMixStage, MixStage.inputLabels] at hx
  | a :: b :: rest =>
    intro x hx
    simpa [imageMixStage, MixStage.inputLabels] using hx

theorem videoMixStage_inputLabels_subset (vd : ℚ) (L : List ALabel) :
    (videoMixStage vd L).inputLabels ⊆ L := by
  match L with
  | [] =>
    intro x hx
    simp [videoMixStage, MixStage.inputLabels] at hx
  | [l] =>
    intro x hx
    simp [videoMixStage, MixStage.inputLabels] at hx
  | a :: b :: rest =>
    intro x hx
    simpa [videoMixStage, MixStage.inputLabels] using hx

theorem mem_buildVideoAudioChains (vd : ℚ) (audios : List VideoAudioIn)
    (i0 n0 : ℕ) (p : VideoAudioChain)
    (hp : p ∈ buildVideoAudioChains vd i0 n0 audios) :
    ∃ j a, audios[j]? = some a ∧ p.outLabel = ALabel.a (i0 + j) ∧
      a.hasAudio = true ∧ ¬ (min a.duration (vd - a.startTime) ≤ 0) := by
  induction audios generalizing i0 n0 with
  | nil => simp [buildVideoAudioChains] at hp
  | cons a rest ih =>
    simp only [buildVideoAudioChains] at hp
    by_cases h1 : a.hasAudio = false
    · rw [if_pos h1] at hp
      obtain ⟨j, b, hj, hl, hb⟩ := ih (i0 + 1) n0 hp
      refine ⟨j + 1, b, by simpa using hj, ?_, hb⟩
      rw [hl]
      congr 1
      omega
    · rw [if_neg h1] at hp
      by_cases h2 : min a.duration (vd - a.startTime) ≤ 0
      · rw [if_pos h2] at hp
        obtain ⟨j, b, hj, hl, hb⟩ := ih (i0 + 1) n0 hp
        refine ⟨j + 1, b, by simpa using hj, ?_, hb⟩
        rw [hl]
        congr 1
        omega
      · rw [if_neg h2] at hp
        rcases List.mem_cons.mp hp with h | h
        · refine ⟨0, a, by simp, ?_, ?_, h2⟩
          · rw [h]
            simp
          · simpa using h1
        · obtain ⟨j, b, hj, hl, hb⟩ := ih (i0 + 1) (n0 + 1) h
          refine ⟨j + 1, b, by simpa using hj, ?_, hb⟩
          rw [hl]
          congr 1
          omega

theorem videoExecute_valid_steps (env : VEnv) (videoPath : String)
    (audioFiles : List VAudioFile) (sub : String) (mute : Bool) (out : String)
    (hvid : env.fileExists videoPath = true)
    (haud : ∀ f ∈ audioFiles, env.fileExists f.path = true)
    (hsub : hasSubtitleParam sub = false)
    (hstream : (env.probeMedia videoPath).hasVideo = true) :
    videoExecute env videoPath audioFiles sub mute out =
      Except.ok
        { success := true
          outputPath := out
          videoPath := videoPath
          audioFilesCount := audioFiles.length
          hasSubtitle := hasSubtitleParam sub
          muteOriginalAudio := mute
          videoDuration := (env.probeMedia videoPath).duration } := by
  have h2 : audioFiles.find? (fun f => ! env.fileExists f.path) = none :=
    List.find?_eq_none.mpr (fun f hf => by simp [haud f hf])
  unfold videoExecute
  rw [hvid, h2, hsub]
  unfold videoExecuteProbed
  simp [hstream, hsub]

theorem imageExecute_valid_steps (env : Env) (sceneList : List SceneInfo)
    (audioList : List AudioItem) (kb : Bool) (sub out : String)
    (hscene : sceneList.length ≠ 0)
    (himg : ∀ s ∈ sceneList, env.fileExists s.image_filepath = true)
    (haud : ∀ x ∈ audioList, env.fileExists x.audio_filePath = true)
    (hsub : hasSubtitleParam sub = false) :
    imageExecute env sceneList audioList kb sub out =
      (Except.ok (imageComposeResult sceneList audioList kb sub out),
       audioList.map AudioItem.audio_filePath) := by
  have h1 : sceneList.find? (fun s => ! env.fileExists s.image_filepath) = none :=
    List.find?_eq_none.mpr (fun s hs => by simp [himg s hs])
  have h2 : audioList.find? (fun x => ! env.fileExists x.audio_filePath) = none :=
    List.find?_eq_none.mpr (fun x hx => by simp [haud x hx])
  unfold imageExecute
  rw [if_neg hscene, h1, h2, hsub]
  rfl

/-- Claim C2: in both composers, a track whose effective duration
`min(probedDurationSec, totalDurationSec − startOffsetSec)` is non-positive
is skipped entirely: its chain is not built, no emitted chain carries its
label, its label is absent from the mix node's input list, and the
composition still returns its success result with no error.  The first four
conjuncts cover the image composer; the last conjunct states the same three
facts for the video composer (whose `totalDurationSec` is the base video's
probed duration and whose offsets are in seconds). -/
theorem skipped_track_excluded (env : Env) (sceneList : List SceneInfo)
    (audioList : List AudioItem) (kb : Bool) (out : String)
    (i : ℕ) (item : AudioItem)
    (hi : audioList[i]? = some item)
    (hskip : min (env.probeDuration item.audio_filePath)
      (totalDurationOf sceneList - item.audio_starttime / 1000) ≤ 0)
    (hscene : sceneList.length ≠ 0)
    (himg : ∀ s ∈ sceneList, env.fileExists s.image_filepath = true)
    (haud : ∀ x ∈ audioList, env.fileExists x.audio_filePath = true) :
    buildImageAudioChain (totalDurationOf sceneList) sceneList.length i
      (probedAudioInfo env item) = none ∧
    (∀ p ∈ imageAudioParts (totalDurationOf sceneList) sceneList.length
      (audioList.map (probedAudioInfo env)), p.outLabel ≠ i) ∧
    ALabel.a i ∉ (imageMixStage (totalDurationOf sceneList)
      ((imageAudioParts (totalDurationOf sceneList) sceneList.length
        (audioList.map (probedAudioInfo env))).map
        (fun p => ALabel.a p.outLabel))).inputLabels ∧
    imageExecute env sceneList audioList kb "" out =
      (Except.ok (imageComposeResult sceneList audioList kb "" out),
       audioList.map AudioItem.audio_filePath) ∧
    (∀ (env2 : VEnv) (videoPath out2 : String) (mute : Bool)
      (audioFiles : List VAudioFile) (i2 : ℕ) (f : VAudioFile),
      audioFiles[i2]? = some f →
      min (env2.probeMedia f.path).duration
        ((env2.probeMedia videoPath).duration - f.startTime) ≤ 0 →
      env2.fileExists videoPath = true →
      (∀ g ∈ audioFiles, env2.fileExists g.path = true) →
      (env2.probeMedia videoPath).hasVideo = true →
      (∀ p ∈ buildVideoAudioChains (env2.probeMedia videoPath).duration 0 1
        (audioFiles.map (probedVideoAudio env2)), p.outLabel ≠ ALabel.a i2) ∧
      ALabel.a i2 ∉ ((videoAudioSection (env2.probeMedia videoPath).duration
        mute (env2.probeMedia videoPath).hasAudio
        (env2.probeMedia videoPath).channels
        (audioFiles.map (probedVideoAudio env2))).2).inputLabels ∧
      videoExecute env2 videoPath audioFiles "" mute out2 =
        Except.ok
          { success := true
            outputPath := out2
            videoPath := videoPath
            audioFilesCount := audioFiles.length
            hasSubtitle := hasSubtitleParam ""
            muteOriginalAudio := mute
            videoDuration := (env2.probeMedia videoPath).duration }) := by
  have hnone : buildImageAudioChain (totalDurationOf sceneList)
      sceneList.length i (probedAudioInfo env item) = none := by
    simp only [buildImageAudioChain, probedAudioInfo]
    rw [if_pos hskip]
  have hlabels : ∀ p ∈ imageAudioParts (totalDurationOf sceneList)
      sceneList.length (audioList.map (probedAudioInfo env)),
      p.outLabel ≠ i := by
    intro p hp heq
    obtain ⟨j, b, hj, hb⟩ := mem_imageAudioPartsAux _ _ _ _ _ hp
    rw [Nat.zero_add] at hb
    have hjl : p.outLabel = j := buildImageAudioChain_outLabel _ _ _ _ _ hb
    rw [hjl] at heq
    subst heq
    rw [List.getElem?_map, hi] at hj
    simp at hj
    subst hj
    rw [hnone] at hb
    exact Option.noConfusion hb
  refine ⟨hnone, hlabels, ?_, ?_, ?_⟩
  · intro hmem
    have hx := imageMixStage_inputLabels_subset _ _ hmem
    obtain ⟨p, hp, hpa⟩ := List.mem_map.mp hx
    injection hpa with hpl
    exact hlabels p hp hpl
  · exact imageExecute_valid_steps env sceneList audioList kb "" out hscene
      himg haud (by decide)
  · intro env2 videoPath out2 mute audioFiles i2 f hif hskip2 hvid haud2
      hstream
    have hVlabels : ∀ p ∈ buildVideoAudioChains
        (env2.probeMedia videoPath).duration 0 1
        (audioFiles.map (probedVideoAudio env2)),
        p.outLabel ≠ ALabel.a i2 := by
      intro p hp heq
      obtain ⟨j, b, hj, hl, hbA, hbEff⟩ := mem_buildVideoAudioChains _ _ _ _ _ hp
      have hij : ALabel.a i2 = ALabel.a (0 + j) := heq.symm.trans hl
      injection hij with hij
      have hji : j = i2 := by omega
      subst hji
      rw [List.getElem?_map, hif] at hj
      simp at hj
      subst hj
      simp only [probedVideoAudio] at hbEff
      exact hbEff hskip2
    refine ⟨hVlabels, ?_, ?_⟩
    · intro hmem
      have hx := videoMixStage_inputLabels_subset
        (env2.probeMedia videoPath).duration
        (((videoAudioSection (env2.probeMedia videoPath).duration mute
          (env2.probeMedia videoPath).hasAudio
          (env2.probeMedia videoPath).channels
          (audioFiles.map (probedVideoAudio env2))).1).map
          VideoAudioChain.outLabel) hmem
      obtain ⟨p, hpmem, hpl⟩ := List.mem_map.mp hx
      have hsec1 : (videoAudioSection (env2.probeMedia videoPath).duration
          mute (env2.probeMedia videoPath).hasAudio
          (env2.probeMedia videoPath).channels
          (audioFiles.map (probedVideoAudio env2))).1 =
          (if (!mute && (env2.probeMedia videoPath).hasAudio) = true then
            [{ inputIndex := 0,
               steps := videoFormatSteps (env2.probeMedia videoPath).channels,
               outLabel := ALabel.origAudio }]
          else []) ++
          buildVideoAudioChains (env2.probeMedia videoPath).duration 0 1
            (audioFiles.map (probedVideoAudio env2)) := rfl
      rw [hsec1] at hpmem
      rcases List.mem_append.mp hpmem with hpo | hpt
      · by_cases hcond : (!mute && (env2.probeMedia videoPath).hasAudio) = true
        · rw [if_pos hcond] at hpo
          simp at hpo
          rw [hpo] at hpl
          exact absurd hpl (by simp)
        · rw [if_neg hcond] at hpo
          simp at hpo
      · exact hVlabels p hpt hpl
    · exact videoExecute_valid_steps env2 videoPath audioFiles "" mute out2
        hvid haud2 (by decide) hstream

/-- Witness for C2: one scene of 6000 ms (total 6 s) and one probed track of
5 s starting at 7000 ms, whose effective duration `min(5, 6 − 7) = −1` is
non-positive. -/
theorem skipped_track_excluded_witness :
    buildImageAudioChain
      (totalDurationOf [{ image_filepath := "i.jpg", scene_duration := 6000 }])
      ([{ image_filepath := "i.jpg", scene_duration := 6000 }] :
        List SceneInfo).length 0
      (probedAudioInfo { fileExists := fun _ => true, probeDuration := fun _ => 5 }
        { audio_filePath := "a.mp3", audio_starttime := 7000 }) = none ∧
    (∀ p ∈ imageAudioParts
      (totalDurationOf [{ image_filepath := "i.jpg", scene_duration := 6000 }])
      ([{ image_filepath := "i.jpg", scene_duration := 6000 }] :
        List SceneInfo).length
      ([{ audio_filePath := "a.mp3", audio_starttime := 7000 }].map
        (probedAudioInfo
          { fileExists := fun _ => true, probeDuration := fun _ => 5 })),
      p.outLabel ≠ 0) ∧
    ALabel.a 0 ∉ (imageMixStage
      (totalDurationOf [{ image_filepath := "i.jpg", scene_duration := 6000 }])
      ((imageAudioParts
        (totalDurationOf [{ image_filepath := "i.jpg", scene_duration := 6000 }])
        ([{ image_filepath := "i.jpg", scene_duration := 6000 }] :
          List SceneInfo).length
        ([{ audio_filePath := "a.mp3", audio_starttime := 7000 }].map
          (probedAudioInfo
            { fileExists := fun _ => true, probeDuration := fun _ => 5 }))).map
        (fun p => ALabel.a p.outLabel))).inputLabels ∧
    imageExecute { fileExists := fun _ => true, probeDuration := fun _ => 5 }
      [{ image_filepath := "i.jpg", scene_duration := 6000 }]
      [{ audio_filePath := "a.mp3", audio_starttime := 7000 }] true "" "o.mp4" =
      (Except.ok (imageComposeResult
        [{ image_filepath := "i.jpg", scene_duration := 6000 }]
        [{ audio_filePath := "a.mp3", audio_starttime := 7000 }] true "" "o.mp4"),
       [{ audio_filePath := "a.mp3", audio_starttime := 7000 }].map
         AudioItem.audio_filePath) ∧
    ((∀ p ∈ buildVideoAudioChains (10 : ℚ) 0 1
        [{ filePath := "a.mp3", startTime := 11, hasAudio := true,
           duration := 10, channels := 2 }], p.outLabel ≠ ALabel.a 0) ∧
      ALabel.a 0 ∉ ((videoAudioSection (10 : ℚ) false true 2
        [{ filePath := "a.mp3", startTime := 11, hasAudio := true,
           duration := 10, channels := 2 }]).2).inputLabels ∧
      videoExecute
        { fileExists := fun _ => true
          probeMedia := fun _ =>
            { hasVideo := true, hasAudio := true, duration := 10,
              channels := 2 } }
        "v.mp4" [{ path := "a.mp3", startTime := 11 }] "" false "w.mp4" =
        Except.ok
          { success := true
            outputPath := "w.mp4"
            videoPath := "v.mp4"
            audioFilesCount := 1
            hasSubtitle := hasSubtitleParam ""
            muteOriginalAudio := false
            videoDuration := 10 }) :=
  let h := skipped_track_excluded
    { fileExists := fun _ => true, probeDuration := fun _ => 5 }
    [{ image_filepath := "i.jpg", scene_duration := 6000 }]
    [{ audio_filePath := "a.mp3", audio_starttime := 7000 }]
    true "o.mp4" 0 { audio_filePath := "a.mp3", audio_starttime := 7000 }
    rfl
    (by norm_num [totalDurationOf, min_def])
    (by decide)
    (fun _ _ => rfl)
    (fun _ _ => rfl)
  ⟨h.1, h.2.1, h.2.2.1, h.2.2.2.1,
    h.2.2.2.2
      { fileExists := fun _ => true
        probeMedia := fun _ =>
          { hasVideo := true, hasAudio := true, duration := 10,
            channels := 2 } }
      "v.mp4" "w.mp4" false [{ path := "a.mp3", startTime := 11 }] 0
      { path := "a.mp3", startTime := 11 }
      rfl
      (by norm_num [min_def])
      rfl
      (fun _ _ => rfl)
      rfl⟩

/-- Claim C3: for every surviving track, `padDurationSec = totalDurationSec −
effectiveDurationSec − startOffsetSec`; when it is positive the chain ends
with an `apad` node whose duration parameter is that value rounded to three
decimals, and when it is zero or negative no `apad` node appears in the
chain.  This holds for the chains of both composers, and the image composer's
surviving chains are exactly `imageChainSteps` applied at the computed start
and effective durations. -/
theorem pad_node_rule (totalDuration startTime effectiveDuration : ℚ)
    (channels : ℕ) :
    (0 < totalDuration - effectiveDuration - startTime →
      (imageChainSteps totalDuration startTime effectiveDuration).getLast? =
        some (AudioFilterStep.apad
          (toFixed3 (totalDuration - effectiveDuration - startTime))) ∧
      (videoChainSteps totalDuration channels startTime
        effectiveDuration).getLast? =
        some (AudioFilterStep.apad
          (toFixed3 (totalDuration - effectiveDuration - startTime)))) ∧
    (totalDuration - effectiveDuration - startTime ≤ 0 →
      (∀ q, AudioFilterStep.apad q ∉
        imageChainSteps totalDuration startTime effectiveDuration) ∧
      (∀ q, AudioFilterStep.apad q ∉
        videoChainSteps totalDuration channels startTime effectiveDuration)) ∧
    (∀ (audioStartIndex i : ℕ) (a : AudioInfo),
      0 < min a.duration (totalDuration - a.audio_starttime / 1000) →
      buildImageAudioChain totalDuration audioStartIndex i a =
        some { inputIndex := audioStartIndex + i
               steps := imageChainSteps totalDuration
                 (a.audio_starttime / 1000)
                 (min a.duration (totalDuration - a.audio_starttime / 1000))
               outLabel := i }) := by
  refine ⟨?_, ?_, ?_⟩
  · intro hpad
    have htail : chainTimingSteps totalDuration startTime effectiveDuration =
        ([AudioFilterStep.atrim effectiveDuration, AudioFilterStep.asetpts] ++
          (if startTime > 0 then
            [AudioFilterStep.adelay (jsMathRound (startTime * 1000))] else [])) ++
        [AudioFilterStep.apad
          (toFixed3 (totalDuration - effectiveDuration - startTime))] := by
      simp only [chainTimingSteps]
      rw [if_pos hpad, List.append_assoc]
    constructor
    · rw [imageChainSteps, htail, ← List.append_assoc, List.getLast?_concat]
    · rw [videoChainSteps, htail, ← List.append_assoc, List.getLast?_concat]
  · intro hpad
    have htail : chainTimingSteps totalDuration startTime effectiveDuration =
        [AudioFilterStep.atrim effectiveDuration, AudioFilterStep.asetpts] ++
          (if startTime > 0 then
            [AudioFilterStep.adelay (jsMathRound (startTime * 1000))] else []) ++
        [] := by
      simp only [chainTimingSteps]
      rw [if_neg (not_lt.mpr hpad)]
    constructor
    · intro q
      rw [imageChainSteps, htail]
      split_ifs <;> simp [videoFormatSteps]
    · intro q
      rw [videoChainSteps, htail]
      unfold videoFormatSteps
      split_ifs <;> simp
  · intro audioStartIndex i a h
    simp only [buildImageAudioChain]
    rw [if_neg (not_le.mpr h)]

/-- Witness for C3: a 6 s timeline; a track starting at 1 s with effective
duration 4 s needs a 1 s pad, a track starting at 5 s with effective duration
1 s needs none, and a probed track of 4 s starting at 1000 ms survives with
its full chain. -/
theorem pad_node_rule_witness :
    ((imageChainSteps 6 1 4).getLast? =
        some (AudioFilterStep.apad (toFixed3 (6 - 4 - 1))) ∧
      (videoChainSteps 6 2 1 4).getLast? =
        some (AudioFilterStep.apad (toFixed3 (6 - 4 - 1)))) ∧
    ((∀ q, AudioFilterStep.apad q ∉ imageChainSteps 6 5 1) ∧
      (∀ q, AudioFilterStep.apad q ∉ videoChainSteps 6 2 5 1)) ∧
    buildImageAudioChain 6 3 0
      { audio_filePath := "p.mp3", audio_starttime := 1000, duration := 4 } =
      some { inputIndex := 3 + 0
             steps := imageChainSteps 6 (1000 / 1000) (min 4 (6 - 1000 / 1000))
             outLabel := 0 } :=
  ⟨(pad_node_rule 6 1 4 2).1 (by norm_num),
   (pad_node_rule 6 5 1 2).2.1 (by norm_num),
   (pad_node_rule 6 0 0 0).2.2 3 0
     { audio_filePath := "p.mp3", audio_starttime := 1000, duration := 4 }
     (by norm_num [min_def])⟩

/-- Claim C6: compilation is a pure, deterministic function of the request:
compiling the same scene list, probed audio list, flags and paths twice
yields the identical plan (input order, per-scene chains, video tail
statement, audio chains, mix stage and output mapping labels). -/
theorem compile_image_deterministic (s1 s2 : List SceneInfo)
    (a1 a2 : List AudioInfo) (k1 k2 : Bool) (sub1 sub2 out1 out2 : String)
    (hs : s1 = s2) (ha : a1 = a2) (hk : k1 = k2) (hsub : sub1 = sub2)
    (hout : out1 = out2) :
    compileImage s1 a1 k1 sub1 out1 = compileImage s2 a2 k2 sub2 out2 := by
  rw [hs, ha, hk, hsub, hout]

/-- Witness for C6 at a concrete request. -/
theorem compile_image_deterministic_witness :
    compileImage [{ image_filepath := "i.jpg", scene_duration := 2000 }]
      [{ audio_filePath := "a.mp3", audio_starttime := 0, duration := 4 }]
      true "" "o.mp4" =
    compileImage [{ image_filepath := "i.jpg", scene_duration := 2000 }]
      [{ audio_filePath := "a.mp3", audio_starttime := 0, duration := 4 }]
      true "" "o.mp4" :=
  compile_image_deterministic _ _ _ _ _ _ _ _ _ _ rfl rfl rfl rfl rfl

/-- Claim C8: with Ken Burns enabled, a scene of `d` ms yields the chain
scale/pad/setsar, `fps=25`, a `zoompan` whose zoom factor is linearly
interpolated from 1.0 (at frame 0) to the maximum 1.1 (at the frame count
`⌈(d/1000)·25⌉`), a trim to exactly `d/1000` seconds and a reset of
presentation timestamps. -/
theorem ken_burns_scene_chain (d : ℚ) (hd : 0 < d) :
    ∃ z : ℚ → ℚ,
      buildSceneFilter true d =
        [VideoFilterStep.scalePadSetsar 1920 1080,
         VideoFilterStep.fps 25,
         VideoFilterStep.zoompan z (jsMathCeil (d / 1000 * 25)) 1920 1080,
         VideoFilterStep.trim (d / 1000),
         VideoFilterStep.setptsReset] ∧
      1 ≤ jsMathCeil (d / 1000 * 25) ∧
      z 0 = 1 ∧
      z ((jsMathCeil (d / 1000 * 25) : ℤ) : ℚ) = 11 / 10 ∧
      (∀ t : ℚ, z t = 1 + t / (10 * ((jsMathCeil (d / 1000 * 25) : ℤ) : ℚ))) := by
  have hF : 0 < jsMathCeil (d / 1000 * 25) := by
    rw [jsMathCeil]
    rw [Int.ceil_pos]
    positivity
  have hFQ : ((jsMathCeil (d / 1000 * 25) : ℤ) : ℚ) ≠ 0 := by
    exact_mod_cast Int.ne_of_gt hF
  refine ⟨fun onFrame =>
    1 + 1 / 10 * onFrame / ((jsMathCeil (d / 1000 * 25) : ℤ) : ℚ),
    rfl, hF, by norm_num, ?_, ?_⟩
  · show 1 + 1 / 10 * ((jsMathCeil (d / 1000 * 25) : ℤ) : ℚ) /
      ((jsMathCeil (d / 1000 * 25) : ℤ) : ℚ) = 11 / 10
    rw [mul_div_assoc, div_self hFQ]
    norm_num
  · intro t
    show 1 + 1 / 10 * t / ((jsMathCeil (d / 1000 * 25) : ℤ) : ℚ) =
      1 + t / (10 * ((jsMathCeil (d / 1000 * 25) : ℤ) : ℚ))
    rw [show (1 : ℚ) / 10 * t = t / 10 by ring, div_div]

/-- Witness for C8 at a 2000 ms scene. -/
theorem ken_burns_scene_chain_witness :
    (0 : ℚ) < 2000 ∧
    ∃ z : ℚ → ℚ,
      buildSceneFilter true 2000 =
        [VideoFilterStep.scalePadSetsar 1920 1080,
         VideoFilterStep.fps 25,
         VideoFilterStep.zoompan z (jsMathCeil (2000 / 1000 * 25)) 1920 1080,
         VideoFilterStep.trim (2000 / 1000),
         VideoFilterStep.setptsReset] ∧
      1 ≤ jsMathCeil (2000 / 1000 * 25) ∧
      z 0 = 1 ∧
      z ((jsMathCeil (2000 / 1000 * 25) : ℤ) : ℚ) = 11 / 10 ∧
      (∀ t : ℚ, z t =
        1 + t / (10 * ((jsMathCeil (2000 / 1000 * 25) : ℤ) : ℚ))) :=
  ⟨by norm_num, ken_burns_scene_chain 2000 (by norm_num)⟩

/-- Claim C9: the video composer re-encodes exactly when a subtitle is
provided — then a subtitle-overlay statement over the base stream `[0:v]` is
emitted, the output label becomes `[outv]` and the codec options select
libx264 re-encoding; without a subtitle the output label is the passthrough
`0:v`, no statement is emitted, and the codec is stream copy. -/
theorem video_reencode_iff_subtitle (subtitlePath : String) :
    (hasSubtitleParam subtitlePath = true →
      videoComposerVideoPlan subtitlePath =
        ("[outv]", [videoSubtitleStmt subtitlePath]) ∧
      videoComposerCodecOptions subtitlePath =
        ["-c:v", "libx264", "-preset", "medium", "-crf", "23",
         "-pix_fmt", "yuv420p"]) ∧
    (hasSubtitleParam subtitlePath = false →
      videoComposerVideoPlan subtitlePath = ("0:v", []) ∧
      videoComposerCodecOptions subtitlePath = ["-c:v", "copy"]) := by
  constructor <;> intro h <;>
    simp [videoComposerVideoPlan, videoComposerCodecOptions, h]

/-- Witness for C9: a subtitle path takes the re-encode branch, an empty one
the stream-copy branch. -/
theorem video_reencode_iff_subtitle_witness :
    (videoComposerVideoPlan "/tmp/s.srt" =
        ("[outv]", [videoSubtitleStmt "/tmp/s.srt"]) ∧
      videoComposerCodecOptions "/tmp/s.srt" =
        ["-c:v", "libx264", "-preset", "medium", "-crf", "23",
         "-pix_fmt", "yuv420p"]) ∧
    (videoComposerVideoPlan "" = ("0:v", []) ∧
      videoComposerCodecOptions "" = ["-c:v", "copy"]) :=
  ⟨(video_reencode_iff_subtitle "/tmp/s.srt").1 (by decide),
   (video_reencode_iff_subtitle "").2 (by decide)⟩

/-- Claim C10: every successful image composition reports `audioCount` equal
to the number of supplied audio tracks, including tracks skipped for
non-positive effective duration; there is a successful composition whose
`audioCount` differs from the number of surviving chains, so it is not the
surviving-track count. -/
theorem audio_count_counts_supplied (env : Env) (sceneList : List SceneInfo)
    (audioList : List AudioItem) (kb : Bool) (sub out : String)
    (res : ComposeResultJson) (trace : List String)
    (h : imageExecute env sceneList audioList kb sub out =
      (Except.ok res, trace)) :
    res.audioCount = audioList.length ∧
    ∃ (env0 : Env) (scenes0 : List SceneInfo) (audio0 : List AudioItem)
      (res0 : ComposeResultJson) (trace0 : List String),
      imageExecute env0 scenes0 audio0 true "" "o.mp4" =
        (Except.ok res0, trace0) ∧
      res0.audioCount ≠ (imageAudioParts (totalDurationOf scenes0)
        scenes0.length (audio0.map (probedAudioInfo env0))).length := by
  constructor
  · unfold imageExecute at h
    split at h
    · exact absurd h (by simp)
    · split at h
      · exact absurd h (by simp)
      · split at h
        · exact absurd h (by simp)
        · split at h
          · split at h
            · exact absurd h (by simp)
            · split at h
              · exact absurd h (by simp)
              · simp only [imageExecuteProbed, Prod.mk.injEq,
                  Except.ok.injEq] at h
                rw [← h.1]
                rfl
          · simp only [imageExecuteProbed, Prod.mk.injEq,
              Except.ok.injEq] at h
            rw [← h.1]
            rfl
  · refine ⟨{ fileExists := fun _ => true, probeDuration := fun _ => 5 },
      [{ image_filepath := "i.jpg", scene_duration := 6000 }],
      [{ audio_filePath := "a.mp3", audio_starttime := 0 },
       { audio_filePath := "b.mp3", audio_starttime := 7000 }],
      imageComposeResult [{ image_filepath := "i.jpg", scene_duration := 6000 }]
        [{ audio_filePath := "a.mp3", audio_starttime := 0 },
         { audio_filePath := "b.mp3", audio_starttime := 7000 }] true "" "o.mp4",
      ["a.mp3", "b.mp3"], ?_, ?_⟩
    · exact imageExecute_valid_steps _ _ _ _ _ _ (by decide)
        (fun _ _ => rfl) (fun _ _ => rfl) (by decide)
    · have hA : ¬ (min (5 : ℚ) (6000 / 1000 - 0 / 1000) ≤ 0) := by
        norm_num [min_def]
      have hB : min (5 : ℚ) (6000 / 1000 - 7000 / 1000) ≤ 0 := by
        norm_num [min_def]
      norm_num [imageComposeResult, imageAudioParts, imageAudioPartsAux,
        buildImageAudioChain, probedAudioInfo, totalDurationOf, hA, hB]

/-- Witness for C10 at a concrete successful composition. -/
theorem audio_count_counts_supplied_witness :
    (imageComposeResult [{ image_filepath := "i.jpg", scene_duration := 1000 }]
      [{ audio_filePath := "a.mp3", audio_starttime := 0 }]
      true "" "z.mp4").audioCount =
      ([{ audio_filePath := "a.mp3", audio_starttime := 0 }] :
        List AudioItem).length ∧
    ∃ (env0 : Env) (scenes0 : List SceneInfo) (audio0 : List AudioItem)
      (res0 : ComposeResultJson) (trace0 : List String),
      imageExecute env0 scenes0 audio0 true "" "o.mp4" =
        (Except.ok res0, trace0) ∧
      res0.audioCount ≠ (imageAudioParts (totalDurationOf scenes0)
        scenes0.length (audio0.map (probedAudioInfo env0))).length :=
  audio_count_counts_supplied
    { fileExists := fun _ => true, probeDuration := fun _ => 2 }
    [{ image_filepath := "i.jpg", scene_duration := 1000 }]
    [{ audio_filePath := "a.mp3", audio_starttime := 0 }]
    true "" "z.mp4"
    (imageComposeResult [{ image_filepath := "i.jpg", scene_duration := 1000 }]
      [{ audio_filePath := "a.mp3", audio_starttime := 0 }] true "" "z.mp4")
    ["a.mp3"]
    (imageExecute_valid_steps _ _ _ _ _ _ (by decide)
      (fun _ _ => rfl) (fun _ _ => rfl) (by decide))

/-- Counterexample to claim C1 as stated: a concrete video-based composition
with two surviving audio tracks whose final audio output is the mix node with
no gain-compensation stage after it (`postGain = none`), contradicting the
claim's `N > 1` clause that a gain-compensation stage follows the mix. -/
theorem video_mix_without_gain_counterexample :
    (videoAudioSection 10 false false 2
      [{ filePath := "a.mp3", startTime := 0, hasAudio := true,
         duration := 3, channels := 2 },
       { filePath := "b.mp3", startTime := 0, hasAudio := true,
         duration := 3, channels := 2 }]).2 =
      MixStage.amix [ALabel.a 0, ALabel.a 1] 2 false none ∧
    ¬ ∃ g, ((videoAudioSection 10 false false 2
      [{ filePath := "a.mp3", startTime := 0, hasAudio := true,
         duration := 3, channels := 2 },
       { filePath := "b.mp3", startTime := 0, hasAudio := true,
         duration := 3, channels := 2 }]).2).postGain = some g := by
  have hmix : (videoAudioSection 10 false false 2
      [{ filePath := "a.mp3", startTime := 0, hasAudio := true,
         duration := 3, channels := 2 },
       { filePath := "b.mp3", startTime := 0, hasAudio := true,
         duration := 3, channels := 2 }]).2 =
      MixStage.amix [ALabel.a 0, ALabel.a 1] 2 false none := by
    have h3 : ¬ ((3 : ℚ) ≤ 0) := by norm_num
    have h10 : ¬ ((10 : ℚ) ≤ 0) := by norm_num
    simp [videoAudioSection, buildVideoAudioChains, h3, h10, videoMixStage]
  refine ⟨hmix, ?_⟩
  rintro ⟨g, hg⟩
  rw [hmix] at hg
  simp [MixStage.postGain] at hg

/-- Claim C1 (amended): the image composer's final audio output is selected
by the surviving-track count — silence of exactly `totalDuration` at 44100 Hz
for zero labels, an identity `anull` node for one, and for `N ≥ 2` the `amix`
node over exactly the `N` surviving labels followed by a `+4dB` gain stage;
the video composer's selection is the same except that its `amix` carries no
gain stage after the mix. -/
theorem audio_mix_strategy (sceneList : List SceneInfo)
    (audioInfos : List AudioInfo) (kb : Bool) (sub out : String)
    (td e : ℚ) (l : ALabel) (ls : List ALabel) :
    (compileImage sceneList audioInfos kb sub out).audioMix =
      imageMixStage (totalDurationOf sceneList)
        ((imageAudioParts (totalDurationOf sceneList) sceneList.length
          audioInfos).map (fun p => ALabel.a p.outLabel)) ∧
    imageMixStage td [] = MixStage.silence targetSampleRate td ∧
    imageMixStage td [l] = MixStage.anull l ∧
    (2 ≤ ls.length →
      imageMixStage td ls = MixStage.amix ls ls.length true (some 4)) ∧
    videoMixStage e [] = MixStage.silence targetSampleRate e ∧
    videoMixStage e [l] = MixStage.anull l ∧
    (2 ≤ ls.length →
      videoMixStage e ls = MixStage.amix ls ls.length false none) ∧
    (∀ (vd : ℚ) (m hv : Bool) (oc : ℕ) (audios : List VideoAudioIn),
      (videoAudioSection vd m hv oc audios).2 =
        videoMixStage vd ((videoAudioSection vd m hv oc audios).1.map
          VideoAudioChain.outLabel)) := by
  refine ⟨rfl, rfl, rfl, ?_, rfl, rfl, ?_, fun _ _ _ _ _ => rfl⟩ <;>
  · intro h
    match ls with
    | [] => simp at h
    | [x] => simp at h
    | x :: y :: rest => rfl

/-- Witness for (amended) C1 at concrete inputs. -/
theorem audio_mix_strategy_witness :
    imageMixStage 6 [ALabel.a 0, ALabel.a 2] =
      MixStage.amix [ALabel.a 0, ALabel.a 2] 2 true (some 4) ∧
    videoMixStage 6 [ALabel.a 0, ALabel.a 2] =
      MixStage.amix [ALabel.a 0, ALabel.a 2] 2 false none ∧
    imageMixStage 6 ([] : List ALabel) =
      MixStage.silence targetSampleRate 6 :=
  ⟨(audio_mix_strategy [] [] true "" "" 6 6 (ALabel.a 0)
      [ALabel.a 0, ALabel.a 2]).2.2.2.1 (by decide),
   (audio_mix_strategy [] [] true "" "" 6 6 (ALabel.a 0)
      [ALabel.a 0, ALabel.a 2]).2.2.2.2.2.2.1 (by decide),
   (audio_mix_strategy [] [] true "" "" 6 6 (ALabel.a 0)
      [ALabel.a 0, ALabel.a 2]).2.1⟩

theorem amixText_suffix_lengths :
    (":normalize=0[mixed];[mixed]volume=4dB[outa]").length = 43 ∧
    ("[outa]").length = 6 := by
  constructor <;> rfl

/-- Claim C4: for every set of at least two surviving labels, the image
composer's mixing stage is the `amix` node (with `normalize=0`) followed by a
fixed `volume=4dB` gain node, the video composer's is the `amix` node with no
gain node after it, and the two emitted mixing statements are different graph
text. -/
theorem mixing_call_sites_differ (d e : ℚ) (ls : List ALabel)
    (h : 2 ≤ ls.length) :
    imageMixStage d ls = MixStage.amix ls ls.length true (some 4) ∧
    videoMixStage e ls = MixStage.amix ls ls.length false none ∧
    (imageMixStage d ls).postGain = some 4 ∧
    (videoMixStage e ls).postGain = none ∧
    imageAmixText ls ≠ videoAmixText ls := by
  match ls with
  | [] => simp at h
  | [l] => simp at h
  | a :: b :: rest =>
    refine ⟨rfl, rfl, rfl, rfl, ?_⟩
    intro heq
    have hlen := congrArg String.length heq
    rw [imageAmixText, videoAmixText, String.length_append,
      String.length_append, amixText_suffix_lengths.1,
      amixText_suffix_lengths.2] at hlen
    omega

/-- Witness for C4 at two concrete labels. -/
theorem mixing_call_sites_differ_witness :
    imageMixStage 0 [ALabel.a 0, ALabel.a 1] =
        MixStage.amix [ALabel.a 0, ALabel.a 1] 2 true (some 4) ∧
    videoMixStage 0 [ALabel.a 0, ALabel.a 1] =
        MixStage.amix [ALabel.a 0, ALabel.a 1] 2 false none ∧
    (imageMixStage 0 [ALabel.a 0, ALabel.a 1]).postGain = some 4 ∧
    (videoMixStage 0 [ALabel.a 0, ALabel.a 1]).postGain = none ∧
    imageAmixText [ALabel.a 0, ALabel.a 1] ≠
      videoAmixText [ALabel.a 0, ALabel.a 1] :=
  mixing_call_sites_differ 0 0 [ALabel.a 0, ALabel.a 1] (by decide)

/-- Claim C5: the subtitle path escaping function is exactly the three
substitution passes — backslash to four backslashes, then colon to
backslash-colon, then quote to backslash-quote, in that order — and hence
acts character-wise: every input backslash is quadrupled and every colon and
single quote is backslash-escaped in the output. -/
theorem escape_subtitle_path_spec (p : List Char) :
    escapeSubtitlePath p =
      replaceAllChar squote [bslash, squote]
        (replaceAllChar ':' [bslash, ':']
          (replaceAllChar bslash fourBackslashes p)) ∧
    escapeSubtitlePath p = (p.map escChar).flatten ∧
    escChar bslash = [bslash, bslash, bslash, bslash] ∧
    escChar ':' = [bslash, ':'] ∧
    escChar squote = [bslash, squote] := by
  refine ⟨rfl, escapeSubtitlePath_charwise p, by decide, by decide, by decide⟩

end NCompose
